import Mathlib

/-!
Verification development for the claude-code-ui session tracking system.

The repository tracks Claude Code sessions by combining transcript-derived
state (a small finite-state machine) with side-channel hook signal files.
This file gives a shallow embedding of:

* the per-session status FSM and its event alphabet,
* the signal-override resolver that merges FSM-derived status with active
  hook signals,
* the staleness monitor tick,
* the transcript-record event mapper and its auto-approved tool allow-list,
* the four hook shell scripts as transformers of the signal-file store
  (`packages/daemon/scripts/hooks/stop.sh`, `user-prompt-submit.sh`,
  `permission-request.sh`, `session-end.sh`),
* the UI's `getEffectiveStatus` in
  `packages/ui/src/components/SessionTable.tsx`,
* the daemon's recency guard in `packages/daemon/src/serve.ts`.

The daemon files `watcher.ts` and `status-machine.ts` are not part of the
source tree here; the definitions that embed them are modelled from the
specification and the code excerpts quoted in
`docs/architecture/session-tracking-system.md` and
`docs/concepts/daemon-ended-session-handling.md`, and are marked as such.
-/

/-- The three turn-progress states of the status state machine.
Modelled from the spec: states of `status-machine.ts` (file not in the
source tree), per §4.2 and `docs/architecture/session-tracking-system.md`. -/
inductive TurnState where
  | waiting_for_input
  | working
  | waiting_for_approval
deriving DecidableEq, Repr

/-- FSM-visible per-session state: the turn state plus the pending-tool flag.
Modelled from the spec: the XState machine context of `status-machine.ts`
(file not in the source tree). -/
structure FsmState where
  turnState : TurnState
  hasPendingToolUse : Bool
deriving DecidableEq, Repr

/-- Status events consumed by the state machine.
Modelled from the spec: the `StatusEvent` union in
`docs/architecture/session-tracking-system.md` (lines 73-80). -/
inductive StatusEvent where
  | userPrompt
  | toolResult (toolUseIds : List String)
  | assistantStreaming
  | assistantToolUse (toolUseIds : List String)
  | turnEnd
  | staleTimeout
deriving DecidableEq, Repr

/-- One step of the status state machine.
Modelled from the spec: §4.2 transition table of `status-machine.ts`
(file not in the source tree); any (state, event) pair not listed in the
table leaves the state unchanged. -/
def step (s : FsmState) (e : StatusEvent) : FsmState :=
  match s.turnState, e with
  | .waiting_for_input, .userPrompt => ⟨.working, s.hasPendingToolUse⟩
  | .working, .assistantToolUse _ => ⟨.waiting_for_approval, true⟩
  | .working, .turnEnd => ⟨.waiting_for_input, false⟩
  | .working, .staleTimeout =>
      if s.hasPendingToolUse then s else ⟨.waiting_for_input, false⟩
  | .waiting_for_approval, .toolResult _ => ⟨.working, false⟩
  | .waiting_for_approval, .staleTimeout => ⟨.waiting_for_input, false⟩
  | _, _ => s

/-- The externally visible status values published by the daemon. -/
inductive EffStatus where
  | working
  | waiting
  | idle
deriving DecidableEq, Repr

/-- Presence of the four side-channel signal kinds for one session
(`working`, `permission`, `stop`, `ended` files in
`~/.claude/session-signals/`). -/
structure SignalSet where
  working : Bool
  permission : Bool
  stop : Bool
  ended : Bool
deriving DecidableEq, Repr

/-- FSM-derived (status, hasPendingToolUse) projection.
Modelled from the spec: §4.3 fallback branch (`working` maps to `working`;
`waiting_for_approval` maps to `waiting` with pending; `waiting_for_input`
maps to `waiting` without pending). -/
def derivedOf (f : FsmState) : EffStatus × Bool :=
  match f.turnState with
  | .working => (.working, false)
  | .waiting_for_approval => (.waiting, true)
  | .waiting_for_input => (.waiting, false)

/-- The signal override resolver.
Modelled from the spec: the hook-signal override chain of `watcher.ts`
(file not in the source tree), quoted at
`docs/architecture/session-tracking-system.md` lines 154-165: `ended`,
then `permission`, then `stop`, then `working`, else the derived value. -/
def resolveOverride (derived : EffStatus × Bool) (sig : SignalSet) :
    EffStatus × Bool :=
  if sig.ended then (.idle, false)
  else if sig.permission then (.waiting, true)
  else if sig.stop then (.waiting, false)
  else if sig.working then (.working, false)
  else derived

/-- C1: the Signal Override Resolver follows the fixed priority
ended > permission > stop > working > FSM-derived: an active `ended` signal
yields `idle` with no pending tool use regardless of the derived value and
the other signals; else `permission` yields `waiting` with pending; else
`stop` yields `waiting` without pending; else `working` yields `working`
without pending; with no active signal the FSM-derived value is returned. -/
theorem resolveOverride_priority (derived : EffStatus × Bool) (sig : SignalSet) :
    (sig.ended = true → resolveOverride derived sig = (.idle, false)) ∧
    (sig.ended = false → sig.permission = true →
      resolveOverride derived sig = (.waiting, true)) ∧
    (sig.ended = false → sig.permission = false → sig.stop = true →
      resolveOverride derived sig = (.waiting, false)) ∧
    (sig.ended = false → sig.permission = false → sig.stop = false →
      sig.working = true → resolveOverride derived sig = (.working, false)) ∧
    (sig.ended = false → sig.permission = false → sig.stop = false →
      sig.working = false → resolveOverride derived sig = derived) := by
  obtain ⟨w, p, st, e⟩ := sig
  cases w <;> cases p <;> cases st <;> cases e <;>
    simp [resolveOverride]

/-- Witness for C1: with every signal kind active at once and a derived
value of `working`, the resolver still returns `idle` with no pending tool
use. -/
theorem resolveOverride_priority_witness :
    resolveOverride (EffStatus.working, false) ⟨true, true, true, true⟩ =
      (EffStatus.idle, false) :=
  (resolveOverride_priority (EffStatus.working, false) ⟨true, true, true, true⟩).1 rfl

/-- Counterexample for C3: the pair `(waiting_for_approval, STALE_TIMEOUT)`
is not among the four transitions the claim lists, yet it does not leave the
state unchanged — it moves the session to `waiting_for_input`. -/
theorem step_stale_changes_state :
    step ⟨TurnState.waiting_for_approval, true⟩ StatusEvent.staleTimeout ≠
      ⟨TurnState.waiting_for_approval, true⟩ := by
  decide

/-- C3 (amended): with no active signals the machine makes exactly the four
claimed turn transitions (`USER_PROMPT`, `ASSISTANT_TOOL_USE`, `TOOL_RESULT`,
`TURN_END`) plus the `STALE_TIMEOUT` transitions (from `working` with no
pending tool use, and from `waiting_for_approval`, to `waiting_for_input`);
every other (state, event) pair leaves the state unchanged. -/
theorem step_transition_table (p : Bool) (ids : List String) :
    step ⟨.waiting_for_input, p⟩ .userPrompt = ⟨.working, p⟩ ∧
    step ⟨.working, p⟩ (.assistantToolUse ids) = ⟨.waiting_for_approval, true⟩ ∧
    step ⟨.waiting_for_approval, p⟩ (.toolResult ids) = ⟨.working, false⟩ ∧
    step ⟨.working, p⟩ .turnEnd = ⟨.waiting_for_input, false⟩ ∧
    step ⟨.working, false⟩ .staleTimeout = ⟨.waiting_for_input, false⟩ ∧
    step ⟨.working, true⟩ .staleTimeout = ⟨.working, true⟩ ∧
    step ⟨.waiting_for_approval, p⟩ .staleTimeout = ⟨.waiting_for_input, false⟩ ∧
    step ⟨.waiting_for_input, p⟩ (.toolResult ids) = ⟨.waiting_for_input, p⟩ ∧
    step ⟨.waiting_for_input, p⟩ .assistantStreaming = ⟨.waiting_for_input, p⟩ ∧
    step ⟨.waiting_for_input, p⟩ (.assistantToolUse ids) = ⟨.waiting_for_input, p⟩ ∧
    step ⟨.waiting_for_input, p⟩ .turnEnd = ⟨.waiting_for_input, p⟩ ∧
    step ⟨.waiting_for_input, p⟩ .staleTimeout = ⟨.waiting_for_input, p⟩ ∧
    step ⟨.working, p⟩ .userPrompt = ⟨.working, p⟩ ∧
    step ⟨.working, p⟩ (.toolResult ids) = ⟨.working, p⟩ ∧
    step ⟨.working, p⟩ .assistantStreaming = ⟨.working, p⟩ ∧
    step ⟨.waiting_for_approval, p⟩ .userPrompt = ⟨.waiting_for_approval, p⟩ ∧
    step ⟨.waiting_for_approval, p⟩ .assistantStreaming = ⟨.waiting_for_approval, p⟩ ∧
    step ⟨.waiting_for_approval, p⟩ (.assistantToolUse ids) = ⟨.waiting_for_approval, p⟩ ∧
    step ⟨.waiting_for_approval, p⟩ .turnEnd = ⟨.waiting_for_approval, p⟩ := by
  cases p <;> exact ⟨rfl, rfl, rfl, rfl, rfl, rfl, rfl, rfl, rfl, rfl, rfl,
    rfl, rfl, rfl, rfl, rfl, rfl, rfl, rfl⟩

/-- Stale timeout threshold in milliseconds.
Modelled from the spec: `STALE_TIMEOUT_MS` in `status-machine.ts` (file not
in the source tree), quoted at
`docs/architecture/session-tracking-system.md` line 130. -/
def STALE_TIMEOUT_MS : Nat := 15 * 1000

/-- One Staleness Monitor tick for a single session, given the elapsed time
since `lastActivityAt` in milliseconds.
Modelled from the spec: the stale sweep of `status-machine.ts` lines
270-286 (file not in the source tree), quoted at
`docs/architecture/session-tracking-system.md` lines 130-138: past the
threshold, a session in `working` with no pending tool use, or in
`waiting_for_approval`, receives a `STALE_TIMEOUT` event. -/
def staleTick (s : FsmState) (timeSinceActivity : Nat) : FsmState :=
  if timeSinceActivity > STALE_TIMEOUT_MS then
    match s.turnState with
    | .working => if s.hasPendingToolUse then s else step s .staleTimeout
    | .waiting_for_approval => step s .staleTimeout
    | .waiting_for_input => s
  else s

/-- C4: a session in `working` with `hasPendingToolUse = false`, or in
`waiting_for_approval`, whose elapsed time exceeds 15 seconds transitions to
`waiting_for_input` on the next Staleness Monitor tick; a session in
`waiting_for_input` is never changed by the monitor. -/
theorem staleTick_spec (s : FsmState) (t : Nat) :
    (t > STALE_TIMEOUT_MS →
      ((s.turnState = .working ∧ s.hasPendingToolUse = false) ∨
        s.turnState = .waiting_for_approval) →
      (staleTick s t).turnState = .waiting_for_input) ∧
    (s.turnState = .waiting_for_input → staleTick s t = s) := by
  obtain ⟨ts, p⟩ := s
  constructor
  · intro ht hc
    cases ts <;> cases p <;>
      simp_all [staleTick, step]
  · intro h
    cases ts <;> simp_all [staleTick]

/-- Witness for C4: a session in `working` with no pending tool use and 16
seconds of silence is moved to `waiting_for_input`, and a session in
`waiting_for_input` is untouched by the same tick. -/
theorem staleTick_spec_witness :
    (staleTick ⟨TurnState.working, false⟩ 16000).turnState =
        TurnState.waiting_for_input ∧
      staleTick ⟨TurnState.waiting_for_input, true⟩ 16000 =
        ⟨TurnState.waiting_for_input, true⟩ :=
  ⟨(staleTick_spec ⟨TurnState.working, false⟩ 16000).1 (by decide)
      (Or.inl ⟨rfl, rfl⟩),
    (staleTick_spec ⟨TurnState.waiting_for_input, true⟩ 16000).2 rfl⟩

/-- A parsed transcript content block: plain text, a tool-use block, or a
tool-result block.
Modelled from the spec: the record shapes the Event Mapper of
`status-machine.ts` (file not in the source tree) consumes, per §4.1 and
`docs/architecture/session-tracking-system.md` lines 82-95. -/
inductive ContentBlock where
  | text (s : String)
  | toolUse (toolUseId : String) (name : String)
  | toolResult (toolUseId : String)
deriving DecidableEq, Repr

/-- The fixed allow-list of auto-approved tool names.
Modelled from the spec: the Auto-Approved Tools list quoted at
`docs/architecture/session-tracking-system.md` lines 89-95. -/
def autoApprovedTools : List String :=
  ["Task", "Read", "Glob", "Grep", "TodoWrite", "TaskOutput"]

/-- Identifiers of the tool-use blocks whose tool name is not on the
auto-approved allow-list. -/
def nonApprovedToolUseIds (content : List ContentBlock) : List String :=
  content.filterMap fun b =>
    match b with
    | .toolUse i name => if name ∈ autoApprovedTools then none else some i
    | _ => none

/-- Identifiers referenced by tool-result blocks. -/
def toolResultIds (content : List ContentBlock) : List String :=
  content.filterMap fun b =>
    match b with
    | .toolResult i => some i
    | _ => none

/-- Whether the content holds a plain text block. -/
def hasTextBlock (content : List ContentBlock) : Bool :=
  content.any fun b =>
    match b with
    | .text _ => true
    | _ => false

/-- The Event Mapper: parsed transcript record (role, content blocks,
optional subtype) → at most one status event.
Modelled from the spec: §4.1 mapping rules of `status-machine.ts` (file not
in the source tree), per `docs/architecture/session-tracking-system.md`
lines 82-95: user records with tool results map to `TOOL_RESULT`, user
records with text map to `USER_PROMPT`, assistant records map to
`ASSISTANT_STREAMING` unless a non-allow-listed tool-use block is present
(then `ASSISTANT_TOOL_USE` with those identifiers), system records with a
`turn_duration` or `stop_hook_summary` subtype map to `TURN_END`, everything
else maps to no event. -/
def mapRecord (role : String) (content : List ContentBlock)
    (subtype : Option String) : Option StatusEvent :=
  if role = "user" then
    if (toolResultIds content).isEmpty then
      if hasTextBlock content then some .userPrompt else none
    else some (.toolResult (toolResultIds content))
  else if role = "assistant" then
    if (nonApprovedToolUseIds content).isEmpty then some .assistantStreaming
    else some (.assistantToolUse (nonApprovedToolUseIds content))
  else if role = "system" then
    if subtype = some "turn_duration" ∨ subtype = some "stop_hook_summary" then
      some .turnEnd
    else none
  else none

/-- Membership characterization of the non-approved tool-use identifiers. -/
theorem mem_nonApprovedToolUseIds (content : List ContentBlock) (i : String) :
    i ∈ nonApprovedToolUseIds content ↔
      ∃ name, ContentBlock.toolUse i name ∈ content ∧
        name ∉ autoApprovedTools := by
  simp only [nonApprovedToolUseIds, List.mem_filterMap]
  constructor
  · rintro ⟨b, hb, hf⟩
    cases b with
    | text s => simp at hf
    | toolResult j => simp at hf
    | toolUse j name =>
        by_cases h : name ∈ autoApprovedTools
        · simp [h] at hf
        · simp [h] at hf
          exact ⟨name, hf ▸ hb, h⟩
  · rintro ⟨name, hmem, hname⟩
    exact ⟨ContentBlock.toolUse i name, hmem, by simp [hname]⟩

/-- C6: an assistant-role record whose tool-use blocks (if any) all name
auto-approved tools maps to `ASSISTANT_STREAMING`; an assistant-role record
with at least one tool-use block outside the allow-list maps to
`ASSISTANT_TOOL_USE` carrying exactly the identifiers of the
non-allow-listed tool-use blocks. -/
theorem mapRecord_assistant (content : List ContentBlock)
    (subtype : Option String) :
    ((∀ i name, ContentBlock.toolUse i name ∈ content →
        name ∈ autoApprovedTools) →
      mapRecord "assistant" content subtype = some .assistantStreaming) ∧
    ((∃ i name, ContentBlock.toolUse i name ∈ content ∧
        name ∉ autoApprovedTools) →
      mapRecord "assistant" content subtype =
        some (.assistantToolUse (nonApprovedToolUseIds content)) ∧
      ∀ i, i ∈ nonApprovedToolUseIds content ↔
        ∃ name, ContentBlock.toolUse i name ∈ content ∧
          name ∉ autoApprovedTools) := by
  constructor
  · intro h
    have hnil : nonApprovedToolUseIds content = [] := by
      rw [List.eq_nil_iff_forall_not_mem]
      intro i hi
      obtain ⟨name, hmem, hname⟩ := (mem_nonApprovedToolUseIds content i).1 hi
      exact hname (h i name hmem)
    simp [mapRecord, hnil]
  · rintro ⟨i, name, hmem, hname⟩
    have hne : ¬ (nonApprovedToolUseIds content).isEmpty := by
      rw [List.isEmpty_iff]
      intro hnil
      have : i ∈ nonApprovedToolUseIds content :=
        (mem_nonApprovedToolUseIds content i).2 ⟨name, hmem, hname⟩
      simp [hnil] at this
    refine ⟨by simp [mapRecord, hne], fun j => mem_nonApprovedToolUseIds content j⟩

/-- Witness for C6: an assistant record using only `Read` maps to
`ASSISTANT_STREAMING`, and an assistant record using `Bash` maps to
`ASSISTANT_TOOL_USE` carrying the `Bash` tool-use identifier. -/
theorem mapRecord_assistant_witness :
    mapRecord "assistant" [ContentBlock.toolUse "t0" "Read"] none =
        some StatusEvent.assistantStreaming ∧
      mapRecord "assistant" [ContentBlock.toolUse "t1" "Bash"] none =
        some (StatusEvent.assistantToolUse ["t1"]) :=
  ⟨(mapRecord_assistant [ContentBlock.toolUse "t0" "Read"] none).1
      (by intro i name h; simp at h; simp [h.2, autoApprovedTools]),
    ((mapRecord_assistant [ContentBlock.toolUse "t1" "Bash"] none).2
      ⟨"t1", "Bash", by simp, by simp [autoApprovedTools]⟩).1⟩

/-- The on-disk signal-file store of `~/.claude/session-signals/`: for each
session identifier, which of the four signal files are present. A missing
`session_id` field is extracted by the scripts as the empty string
(`jq -r ".session_id // empty"`), so the empty string stands for both the
missing and the empty identifier. -/
def SignalStore := String → SignalSet

/-- Pointwise update of one session's entry in the store. -/
def updateStore (store : SignalStore) (sessionId : String)
    (f : SignalSet → SignalSet) : SignalStore :=
  fun s => if s = sessionId then f (store s) else store s

/-- `user-prompt-submit.sh`: guarded on a non-empty session identifier,
writes the `working` signal file and removes the `stop` signal file. -/
def userPromptSubmitHook (sessionId : String) (store : SignalStore) :
    SignalStore :=
  if sessionId = "" then store
  else updateStore store sessionId fun st =>
    { st with working := true, stop := false }

/-- `permission-request.sh`: guarded on a non-empty session identifier,
writes the `permission` signal file; no other signal file is touched. -/
def permissionRequestHook (sessionId : String) (store : SignalStore) :
    SignalStore :=
  if sessionId = "" then store
  else updateStore store sessionId fun st => { st with permission := true }

/-- `packages/daemon/scripts/hooks/stop.sh`: guarded on a non-empty session
identifier, writes the `stop` signal file and removes the `working` and
`permission` signal files. -/
def stopHook (sessionId : String) (store : SignalStore) : SignalStore :=
  if sessionId = "" then store
  else updateStore store sessionId fun st =>
    { st with stop := true, working := false, permission := false }

/-- `session-end.sh`: guarded on a non-empty session identifier, writes the
`ended` signal file and removes the `working`, `permission` and `stop`
signal files. -/
def sessionEndHook (sessionId : String) (store : SignalStore) : SignalStore :=
  if sessionId = "" then store
  else updateStore store sessionId fun _ =>
    { working := false, permission := false, stop := false, ended := true }

/-- C2: applying the SessionEnd hook for a session removes that session's
`working`, `permission` and `stop` signals and leaves only its `ended`
signal active; other sessions' signal files are untouched. -/
theorem sessionEndHook_clears (sessionId : String) (store : SignalStore)
    (h : sessionId ≠ "") :
    (sessionEndHook sessionId store) sessionId =
        ⟨false, false, false, true⟩ ∧
      ∀ s, s ≠ sessionId → (sessionEndHook sessionId store) s = store s := by
  constructor
  · simp [sessionEndHook, updateStore, h]
  · intro s hs
    simp [sessionEndHook, updateStore, h, hs]

/-- Witness for C2: ending session `abc` whose every signal file exists
leaves exactly the `ended` signal for `abc` in the store. -/
theorem sessionEndHook_clears_witness :
    (sessionEndHook "abc" (fun _ => ⟨true, true, true, false⟩)) "abc" =
      ⟨false, false, false, true⟩ :=
  (sessionEndHook_clears "abc" (fun _ => ⟨true, true, true, false⟩)
    (by decide)).1

/-- C7: with a missing or empty session identifier every hook script leaves
the signal store unchanged — no signal file is produced and no session's
signals are mutated. -/
theorem emptySessionId_ignored (store : SignalStore) :
    userPromptSubmitHook "" store = store ∧
    permissionRequestHook "" store = store ∧
    stopHook "" store = store ∧
    sessionEndHook "" store = store := by
  refine ⟨?_, ?_, ?_, ?_⟩ <;> simp [userPromptSubmitHook,
    permissionRequestHook, stopHook, sessionEndHook]

/-- The C9 invariant: no session's signal set holds a `stop` signal together
with a `working` or `permission` signal. -/
def stopExcludesActive (store : SignalStore) : Prop :=
  ∀ s, (store s).stop = true →
    (store s).working = false ∧ (store s).permission = false

/-- Counterexample for C9: with only a `stop` signal present for session
`a` the invariant holds, but the PermissionRequest hook write does not
delete the `stop` signal, so afterwards `a` holds `stop` and `permission`
together and the invariant is violated. -/
theorem permissionRequestHook_breaks_invariant :
    stopExcludesActive (fun _ => ⟨false, false, true, false⟩) ∧
      ¬ stopExcludesActive
        (permissionRequestHook "a" (fun _ => ⟨false, false, true, false⟩)) := by
  constructor
  · intro s _
    exact ⟨rfl, rfl⟩
  · intro h
    have h2 := h "a"
    simp [permissionRequestHook, updateStore] at h2

/-- C9 (amended): the Stop, UserPromptSubmit and SessionEnd hook writes
preserve the invariant that a session's signal set never contains a `stop`
signal together with a `working` or `permission` signal (the Stop hook
deletes `working` and `permission` when writing `stop`, the
UserPromptSubmit hook deletes `stop` when writing `working`, and the
SessionEnd hook deletes all three); the PermissionRequest hook does not
delete the `stop` signal, so its write can leave `stop` and `permission`
active together. -/
theorem hooks_preserve_stopExcludesActive (sessionId : String)
    (store : SignalStore) (h : stopExcludesActive store) :
    stopExcludesActive (stopHook sessionId store) ∧
    stopExcludesActive (userPromptSubmitHook sessionId store) ∧
    stopExcludesActive (sessionEndHook sessionId store) := by
  refine ⟨?_, ?_, ?_⟩
  · intro s
    by_cases hid : sessionId = ""
    · simpa [stopHook, hid] using h s
    · by_cases hs : s = sessionId
      · simp [stopHook, updateStore, hid, hs]
      · simpa [stopHook, updateStore, hid, hs] using h s
  · intro s
    by_cases hid : sessionId = ""
    · simpa [userPromptSubmitHook, hid] using h s
    · by_cases hs : s = sessionId
      · simp [userPromptSubmitHook, updateStore, hid, hs]
      · simpa [userPromptSubmitHook, updateStore, hid, hs] using h s
  · intro s
    by_cases hid : sessionId = ""
    · simpa [sessionEndHook, hid] using h s
    · by_cases hs : s = sessionId
      · simp [sessionEndHook, updateStore, hid, hs]
      · simpa [sessionEndHook, updateStore, hid, hs] using h s

/-- Witness for C9: starting from an empty store, which satisfies the
invariant, a Stop hook write for session `a` keeps the invariant. -/
theorem hooks_preserve_stopExcludesActive_witness :
    stopExcludesActive (stopHook "a" (fun _ => ⟨false, false, false, false⟩)) :=
  (hooks_preserve_stopExcludesActive "a" (fun _ => ⟨false, false, false, false⟩)
    (fun _ h => nomatch h)).1

/-- The four side-channel signal kinds. -/
inductive SignalKind where
  | working
  | permission
  | stop
  | ended
deriving DecidableEq, Repr

/-- Registry-level application of one signal to a session's active-signal
set.
Modelled from the spec: §3 Signal replacement rule plus the `ended`
cross-kind invalidation (an `ended` write also clears `working`,
`permission` and `stop`), as implemented by `session-end.sh` and described
at `docs/concepts/daemon-ended-session-handling.md` lines 32-46. -/
def applySignal (st : SignalSet) : SignalKind → SignalSet
  | .working => { st with working := true }
  | .permission => { st with permission := true }
  | .stop => { st with stop := true }
  | .ended => { working := false, permission := false, stop := false, ended := true }

/-- One per-session input of the tracking pipeline: either a transcript
status event or a side-channel signal. -/
inductive SourceItem where
  | ev (e : StatusEvent)
  | sig (k : SignalKind)
deriving DecidableEq, Repr

/-- Canonical per-session registry state: FSM state plus active signals. -/
structure Sess where
  fsm : FsmState
  sigs : SignalSet
deriving DecidableEq, Repr

/-- Initial session state: `waiting_for_input`, no pending tool use, no
active signal. -/
def initialSess : Sess :=
  ⟨⟨.waiting_for_input, false⟩, ⟨false, false, false, false⟩⟩

/-- Applying one pipeline input: a transcript event advances the FSM, a
signal updates the active-signal set.
Modelled from the spec: §4.4 `applyEvent`/`applySignal` of the Session
Registry (`watcher.ts`, file not in the source tree). -/
def applyItem (s : Sess) : SourceItem → Sess
  | .ev e => { s with fsm := step s.fsm e }
  | .sig k => { s with sigs := applySignal s.sigs k }

/-- Continuous operation: apply the session's interleaved inputs in arrival
order. -/
def runLive (l : List SourceItem) : Sess :=
  l.foldl applyItem initialSess

/-- The transcript events of an input sequence, in order. -/
def eventsOf (l : List SourceItem) : List StatusEvent :=
  l.filterMap fun i =>
    match i with
    | .ev e => some e
    | .sig _ => none

/-- The signals of an input sequence, in file-modification-time order. -/
def signalsOf (l : List SourceItem) : List SignalKind :=
  l.filterMap fun i =>
    match i with
    | .ev _ => none
    | .sig k => some k

/-- Startup: first all historical transcript records are replayed through
the FSM with no signal loaded, then `reconcile()` re-applies every loaded
signal against the constructed session, in file-modification-time order.
Modelled from the spec: §4.4 `reconcile()` /
`reconcileSessionsWithSignals()` of `watcher.ts` (file not in the source
tree), per `docs/concepts/daemon-ended-session-handling.md` lines 95-114. -/
def runStartup (l : List SourceItem) : Sess :=
  let seeded : Sess :=
    ⟨(eventsOf l).foldl step initialSess.fsm, initialSess.sigs⟩
  ⟨seeded.fsm, (signalsOf l).foldl applySignal seeded.sigs⟩

/-- The externally visible (effectiveStatus, hasPendingToolUse) projection
of a session: always recomputed from FSM state and active signals. -/
def effectiveOf (s : Sess) : EffStatus × Bool :=
  resolveOverride (derivedOf s.fsm) s.sigs

/-- Transcript events and signals act on disjoint components of the session
state, so any interleaving folds to the separated pair of folds. -/
theorem foldl_applyItem_split (l : List SourceItem) (s : Sess) :
    l.foldl applyItem s =
      ⟨(eventsOf l).foldl step s.fsm, (signalsOf l).foldl applySignal s.sigs⟩ := by
  induction l generalizing s with
  | nil => rfl
  | cons i rest ih =>
    cases i with
    | ev e => simpa [eventsOf, signalsOf, applyItem] using ih { s with fsm := step s.fsm e }
    | sig k => simpa [eventsOf, signalsOf, applyItem] using ih { s with sigs := applySignal s.sigs k }

/-- C5: the startup pass — replaying all transcript events first and then
reconciling by re-applying every loaded signal — yields, for every
interleaved per-session input sequence, the same effectiveStatus and
pending-tool projection as continuous operation; in particular a fresh
session seeded at startup only from an on-disk `working` signal reconciles
to effectiveStatus `working`. -/
theorem runStartup_matches_runLive :
    (∀ l : List SourceItem, effectiveOf (runStartup l) = effectiveOf (runLive l)) ∧
      effectiveOf (runStartup [SourceItem.sig SignalKind.working]) =
        (EffStatus.working, false) := by
  constructor
  · intro l
    rw [runLive, foldl_applyItem_split l initialSess, runStartup]
  · rfl

/-- Daemon-reported session status as carried in the published schema. -/
inductive DaemonStatus where
  | working
  | waiting
  | idle
deriving DecidableEq, Repr

/-- UI-level effective status computed per render. -/
inductive UiStatus where
  | working
  | approval
  | waiting
  | idle
deriving DecidableEq, Repr

/-- One hour in milliseconds, the UI idle timeout of
`packages/ui/src/components/SessionTable.tsx` line 24. -/
def IDLE_TIMEOUT_MS : Int := 60 * 60 * 1000

/-- `getEffectiveStatus` of `packages/ui/src/components/SessionTable.tsx`
lines 23-37, with `Date.now()` and `session.lastActivityAt` as millisecond
timestamps. -/
def getEffectiveStatus (now lastActivityAt : Int) (status : DaemonStatus)
    (hasPendingToolUse : Bool) : UiStatus :=
  let elapsed := now - lastActivityAt
  if elapsed > IDLE_TIMEOUT_MS then .idle
  else if status = DaemonStatus.working then .working
  else if status = DaemonStatus.waiting ∧ hasPendingToolUse then .approval
  else .waiting

/-- C8: when more than one hour has elapsed since `lastActivityAt` the UI
computes `idle` regardless of the daemon-reported status and the pending
flag; otherwise `working` maps to `working`, `waiting` with a pending tool
use maps to `approval`, and everything else maps to `waiting`. -/
theorem getEffectiveStatus_spec (now last : Int) (status : DaemonStatus)
    (pending : Bool) :
    (now - last > IDLE_TIMEOUT_MS →
      getEffectiveStatus now last status pending = .idle) ∧
    (now - last ≤ IDLE_TIMEOUT_MS →
      (status = .working →
        getEffectiveStatus now last status pending = .working) ∧
      (status = .waiting → pending = true →
        getEffectiveStatus now last status pending = .approval) ∧
      (status = .idle ∨ (status = .waiting ∧ pending = false) →
        getEffectiveStatus now last status pending = .waiting)) := by
  constructor
  · intro h
    simp [getEffectiveStatus, if_pos h]
  · intro h
    have hn : ¬ (now - last > IDLE_TIMEOUT_MS) := not_lt.mpr h
    refine ⟨fun hw => ?_, fun hw hp => ?_, fun hcase => ?_⟩
    · simp [getEffectiveStatus, hn, hw]
    · simp [getEffectiveStatus, hn, hw, hp]
    · rcases hcase with hidle | ⟨hw, hp⟩
      · simp [getEffectiveStatus, hn, hidle]
      · simp [getEffectiveStatus, hn, hw, hp]

/-- Witness for C8: a pending approval two hours old shows as `idle`, and a
fresh pending approval shows as `approval`. -/
theorem getEffectiveStatus_spec_witness :
    getEffectiveStatus 7200000 0 DaemonStatus.waiting true = UiStatus.idle ∧
      getEffectiveStatus 0 0 DaemonStatus.waiting true = UiStatus.approval :=
  ⟨(getEffectiveStatus_spec 7200000 0 DaemonStatus.waiting true).1 (by decide),
    ((getEffectiveStatus_spec 0 0 DaemonStatus.waiting true).2
        (by decide)).2.1 rfl rfl⟩

/-- Default maximum session age in hours, from
`packages/daemon/src/serve.ts` line 37 (`MAX_AGE_HOURS`, default 24 when
the environment variable is unset). -/
def MAX_AGE_HOURS : Int := 24

/-- `MAX_AGE_MS` of `packages/daemon/src/serve.ts` line 38. -/
def MAX_AGE_MS : Int := MAX_AGE_HOURS * 60 * 60 * 1000

/-- `isRecentSession` of `packages/daemon/src/serve.ts` lines 73-76:
whether the session's last activity is within the age window of the
current time. -/
def isRecentSession (now lastActivity : Int) : Bool :=
  decide (now - lastActivity < MAX_AGE_MS)

/-- The change-record types emitted by the watcher. -/
inductive SessionEventType where
  | created
  | updated
  | deleted
deriving DecidableEq, Repr

/-- The recency guard of the `watcher.on("session")` handler in
`packages/daemon/src/serve.ts` lines 209-215: the handler returns early —
does not publish — when the session is not recent and the change type is
not `deleted`. -/
def publishGuard (recent : Bool) (t : SessionEventType) : Bool :=
  if ¬ recent ∧ t ≠ SessionEventType.deleted then false else true

/-- C10: a `created` or `updated` change record is published iff the
session's last activity is within `MAX_AGE_HOURS` (24 by default) of the
current time; `deleted` change records are always published. -/
theorem publishGuard_spec (now last : Int) (t : SessionEventType) :
    ((t = .created ∨ t = .updated) →
      (publishGuard (isRecentSession now last) t = true ↔
        now - last < MAX_AGE_MS)) ∧
    publishGuard (isRecentSession now last) .deleted = true := by
  constructor
  · intro ht
    by_cases hr : now - last < MAX_AGE_MS
    · simp [publishGuard, isRecentSession, hr]
    · rcases ht with h | h <;>
        simp [publishGuard, isRecentSession, hr, h]
  · simp [publishGuard]

/-- Witness for C10: a `created` record for a just-active session is
published, and a `deleted` record for a session last active 25 hours ago is
also published. -/
theorem publishGuard_spec_witness :
    publishGuard (isRecentSession 0 0) SessionEventType.created = true ∧
      publishGuard (isRecentSession 90000000 0) SessionEventType.deleted =
        true :=
  ⟨((publishGuard_spec 0 0 SessionEventType.created).1 (Or.inl rfl)).mpr
      (by decide),
    (publishGuard_spec 90000000 0 SessionEventType.deleted).2⟩
